import Mathlib

/-!
Shallow embedding of the `suez` MPSC channel (`src/lib.rs`).

The Rust code guards all shared state (`ChannelCtx { queue, n_senders }`)
by a single mutex; every operation's critical section is therefore one
atomic step, and an arbitrary interleaved execution is a sequence of such
steps.  We embed the channel as a state machine over `Chan`, whose fields
split into code fields (translated from the source) and ghost fields
(observation history used to state the claims).

`n_senders` is a `u32` in the source; we model it as a `Nat` kept below
`2 ^ 32` with the wrapping arithmetic made explicit.
-/

namespace Suez

/-- The `u32` modulus. -/
def U32 : Nat := 2 ^ 32

/-- Wrapping `u32` increment (`ctx.n_senders += 1` in release mode). -/
def u32succ (n : Nat) : Nat := (n + 1) % U32

/-- Wrapping `u32` decrement (`ctx.n_senders -= 1` in release mode). -/
def u32pred (n : Nat) : Nat := (n + (U32 - 1)) % U32

/-- Global state of one channel.

Code fields, straight from the source:
* `queue`    : `ChannelCtx.queue : VecDeque<T>` (front = head of list);
* `n_senders`: `ChannelCtx.n_senders : u32`;
* `buff`     : `Receiver.buff : VecDeque<T>`, the consumer-local buffer.

Ghost fields, recording what an observer of the execution saw:
* `live`     : number of currently live `Sender` handles;
* `recvLive` : whether the `Receiver` handle is still live;
* `sent`     : every value passed to `send`, in lock-acquisition order;
* `received` : every value returned by `recv`, in call order;
* `signals`  : how many times `cond.notify_one()` has been called. -/
structure Chan (T : Type) where
  queue : List T
  n_senders : Nat
  buff : List T
  live : Nat
  recvLive : Bool
  sent : List T
  received : List T
  signals : Nat
  deriving DecidableEq

variable {T : Type}

/-- Source `Sender::send`: append to the tail of the shared queue, then
`notify_one` exactly once.  Total: the source has no failure path
(the only `unwrap` is on lock poisoning, outside this model). -/
def send (s : Chan T) (v : T) : Chan T :=
  { s with
    queue := s.queue ++ [v]
    sent := s.sent ++ [v]
    signals := s.signals + 1 }

/-- Source `impl Clone for Sender`: increment `n_senders` under the lock and hand
out one more live handle.  No signal. -/
def cloneSender (s : Chan T) : Chan T :=
  { s with
    n_senders := u32succ s.n_senders
    live := s.live + 1 }

/-- Source `impl Drop for Sender`: decrement `n_senders` under the lock; signal
`notify_one` exactly when the new count is zero (`is_last_samurai`). -/
def dropSender (s : Chan T) : Chan T :=
  { s with
    n_senders := u32pred s.n_senders
    live := s.live - 1
    signals := if u32pred s.n_senders = 0 then s.signals + 1 else s.signals }

/-- Dropping the `Receiver`: the source has no `Drop` impl for it, so the
shared state is untouched; only the handle disappears. -/
def dropReceiver (s : Chan T) : Chan T :=
  { s with recvLive := false }

/-- Outcome of one `Receiver::recv` call.  `blocked` marks the state in
which the code would wait on the condition variable: in the atomic-step
semantics such a call has not completed and changes nothing. -/
inductive RecvOut (T : Type) where
  | value : T → RecvOut T
  | closed : RecvOut T
  | blocked : RecvOut T
  deriving DecidableEq

/-- Source `Receiver::recv`, one call:
1. fast path: pop the front of `buff` if non-empty;
2. otherwise, under the lock: pop the front of `queue`; if the remainder
   is non-empty, `std::mem::swap(&mut ctx.queue, &mut self.buff)`;
3. on an empty queue: return `None` when `n_senders == 0`, else wait
   (`blocked`). -/
def recv (s : Chan T) : RecvOut T × Chan T :=
  match s.buff with
  | v :: rest =>
      (RecvOut.value v, { s with buff := rest, received := s.received ++ [v] })
  | [] =>
      match s.queue with
      | [] =>
          if s.n_senders = 0 then (RecvOut.closed, s) else (RecvOut.blocked, s)
      | v :: rest =>
          if rest.isEmpty then
            (RecvOut.value v,
              { s with queue := rest, received := s.received ++ [v] })
          else
            (RecvOut.value v,
              { s with
                queue := s.buff
                buff := rest
                received := s.received ++ [v] })

/-- The spec's wording of the batch transfer: the remainder of the shared
queue is *moved* into the local buffer, leaving the shared queue empty.
Modelled from the spec to be compared with `recv` (which does a swap). -/
def recvMove (s : Chan T) : RecvOut T × Chan T :=
  match s.buff with
  | v :: rest =>
      (RecvOut.value v, { s with buff := rest, received := s.received ++ [v] })
  | [] =>
      match s.queue with
      | [] =>
          if s.n_senders = 0 then (RecvOut.closed, s) else (RecvOut.blocked, s)
      | v :: rest =>
          if rest.isEmpty then
            (RecvOut.value v,
              { s with queue := rest, received := s.received ++ [v] })
          else
            (RecvOut.value v,
              { s with
                queue := []
                buff := rest
                received := s.received ++ [v] })

/-- The factory `channel()`: empty queue, `n_senders = 1`, one live sender
handle, one live receiver with an empty local buffer. -/
def channel : Chan T :=
  { queue := []
    n_senders := 1
    buff := []
    live := 1
    recvLive := true
    sent := []
    received := []
    signals := 0 }

/-- One atomic step of an execution.  `send`, `clone` and `drop` need a
live `Sender` handle; `recv` and dropping the receiver need the live
`Receiver`.  A `recv` that would block contributes a stutter step. -/
inductive Step : Chan T → Chan T → Prop where
  | send (s : Chan T) (v : T) : 1 ≤ s.live → Step s (send s v)
  | clone (s : Chan T) : 1 ≤ s.live → Step s (cloneSender s)
  | drop (s : Chan T) : 1 ≤ s.live → Step s (dropSender s)
  | recv (s : Chan T) : s.recvLive = true → Step s (recv s).2
  | dropRecv (s : Chan T) : s.recvLive = true → Step s (dropReceiver s)

/-- States reachable from the freshly created channel by any interleaving
of operations. -/
def Reachable (s : Chan T) : Prop :=
  Relation.ReflTransGen Step channel s

/-! ### Helper lemmas -/

theorem u32pred_mod (n : Nat) (h : 1 ≤ n) : u32pred (n % U32) = (n - 1) % U32 := by
  have hU : 1 ≤ U32 := by decide
  unfold u32pred
  rw [Nat.mod_add_mod]
  have heq : n + (U32 - 1) = (n - 1) + U32 := by omega
  rw [heq, Nat.add_mod_right]

/-- Calling `recv` never touches the producer counter or the handle bookkeeping. -/
theorem recv_preserves (s : Chan T) :
    (recv s).2.n_senders = s.n_senders ∧ (recv s).2.live = s.live ∧
      (recv s).2.recvLive = s.recvLive := by
  rcases s with ⟨q, ns, b, lv, rl, st, rc, sg⟩
  cases b with
  | cons v rest => simp [recv]
  | nil =>
    cases q with
    | nil => by_cases hns : ns = 0 <;> simp [recv, hns]
    | cons v rest => cases rest <;> simp [recv]

/-- The core invariant is preserved by every atomic step. -/
theorem inv_step {s s' : Chan T} (h : Step s s')
    (ih : s.sent = s.received ++ s.buff ++ s.queue ∧ s.n_senders = s.live % U32) :
    s'.sent = s'.received ++ s'.buff ++ s'.queue ∧ s'.n_senders = s'.live % U32 := by
  obtain ⟨h1, h2⟩ := ih
  cases h with
  | send v hl =>
      exact ⟨by simp [send, h1], by simp [send, h2]⟩
  | clone hl =>
      refine ⟨by simp [cloneSender, h1], ?_⟩
      simp only [cloneSender, u32succ, h2]
      rw [Nat.mod_add_mod]
  | drop hl =>
      refine ⟨by simp [dropSender, h1], ?_⟩
      simp only [dropSender, h2]
      exact u32pred_mod s.live hl
  | recv hrl =>
      rcases s with ⟨q, ns, b, lv, rl, st, rc, sg⟩
      simp only at h1 h2
      cases b with
      | cons v rest => simp_all [recv]
      | nil =>
        cases q with
        | nil => by_cases hns : ns = 0 <;> simp_all [recv, hns]
        | cons v rest => cases rest <;> simp_all [recv]
  | dropRecv hrl =>
      exact ⟨by simp [dropReceiver, h1], by simp [dropReceiver, h2]⟩

/-- Every reachable state satisfies the core invariant: the send history
splits as received, then buffered, then queued values, and the `u32`
counter is the live-handle count modulo `2 ^ 32`. -/
theorem reach_inv {s : Chan T} (h : Reachable s) :
    s.sent = s.received ++ s.buff ++ s.queue ∧ s.n_senders = s.live % U32 := by
  induction h with
  | refl => exact ⟨rfl, rfl⟩
  | tail h1 hstep ih => exact inv_step hstep ih

/-- Once no sender handle is live and the counter is zero, every further
step keeps matters that way. -/
theorem closed_stable {s s' : Chan T} (h : Relation.ReflTransGen Step s s')
    (h0 : s.live = 0) (hn : s.n_senders = 0) : s'.live = 0 ∧ s'.n_senders = 0 := by
  induction h with
  | refl => exact ⟨h0, hn⟩
  | tail h1 hstep ih =>
      obtain ⟨hl, hn'⟩ := ih
      cases hstep with
      | send v hlv => omega
      | clone hlv => omega
      | drop hlv => omega
      | recv hrl =>
          refine ⟨?_, ?_⟩
          · rw [(recv_preserves _).2.1]; exact hl
          · rw [(recv_preserves _).1]; exact hn'
      | dropRecv hrl => exact ⟨hl, hn'⟩

/-- A prefix stays a prefix after filtering and mapping. -/
theorem prefix_filter_map {α β : Type} (p : α → Bool) (f : α → β) {l1 l2 : List α}
    (h : l1 <+: l2) : (l1.filter p).map f <+: (l2.filter p).map f := by
  obtain ⟨t, rfl⟩ := h
  exact ⟨(t.filter p).map f, by simp⟩

/-- Function `recv` reports closure exactly from a drained, closed state, which it
leaves unchanged. -/
theorem recv_closed_inv (s : Chan T) (h : (recv s).1 = RecvOut.closed) :
    s.buff = [] ∧ s.queue = [] ∧ s.n_senders = 0 ∧ recv s = (RecvOut.closed, s) := by
  rcases s with ⟨q, ns, b, lv, rl, st, rc, sg⟩
  cases b with
  | cons v rest => simp [recv] at h
  | nil =>
    cases q with
    | nil =>
        by_cases hns : ns = 0
        · simp_all [recv]
        · simp [recv, hns] at h
    | cons v rest => cases rest <;> simp [recv] at h

/-- From a drained, closed state every number of further `recv` calls
leaves the state fixed and reports closure. -/
theorem recv_closed_iterate {T' : Type} (s : Chan T') (hns : s.n_senders = 0)
    (hq : s.queue = []) (hb : s.buff = []) (n : Nat) :
    recv ((fun t => (recv t).2)^[n] s) = (RecvOut.closed, s) := by
  have hone : recv s = (RecvOut.closed, s) := by
    rcases s with ⟨q, ns, b, lv, rl, st, rc, sg⟩
    simp only at hns hq hb
    subst hns hq hb
    simp [recv]
  have hfix : (fun t => (recv t).2)^[n] s = s :=
    Function.iterate_fixed (by show (recv s).2 = s; rw [hone]) n
  rw [hfix, hone]

/-! ### Claim theorems -/

/-- C3: `send(v)` appends `v` at the tail of the shared queue, leaves the
producer counter, the live-handle count and the consumer's local buffer
unchanged, records `v` in the send history, and signals the condition
variable exactly once.  `send` is a total function: the source has no
failure path under normal operation. -/
theorem send_effect (s : Chan T) (v : T) :
    (send s v).queue = s.queue ++ [v] ∧
    (send s v).n_senders = s.n_senders ∧
    (send s v).buff = s.buff ∧
    (send s v).live = s.live ∧
    (send s v).sent = s.sent ++ [v] ∧
    (send s v).signals = s.signals + 1 :=
  ⟨rfl, rfl, rfl, rfl, rfl, rfl⟩

/-- C6: dropping a sender signals the condition variable exactly when the
decremented counter is zero; cloning a sender never signals. -/
theorem signal_discipline (s : Chan T) :
    (cloneSender s).signals = s.signals ∧
    (dropSender s).signals =
      (if (dropSender s).n_senders = 0 then s.signals + 1 else s.signals) := by
  refine ⟨rfl, ?_⟩
  simp only [dropSender]

/-- C4: a `recv` on an empty local buffer and a non-empty shared queue
returns the queue's front element, moves the whole remainder of the queue
into the local buffer in that same locked step (in queue order), and
leaves the shared queue empty. -/
theorem recv_batch_transfer (s : Chan T) (v : T) (rest : List T)
    (hb : s.buff = []) (hq : s.queue = v :: rest) :
    recv s = (RecvOut.value v,
      { s with queue := [], buff := rest, received := s.received ++ [v] }) := by
  rcases s with ⟨q, ns, b, lv, rl, st, rc, sg⟩
  simp only at hb hq
  subst hb hq
  cases rest <;> simp [recv]

/-- Witness for C4 at a concrete state: after `send 21; send 22`, `recv`
returns `21` and batches `22` into the local buffer. -/
theorem recv_batch_transfer_witness :
    recv (send (send (channel (T := Nat)) 21) 22)
      = (RecvOut.value 21,
        { send (send (channel (T := Nat)) 21) 22 with
            queue := []
            buff := [22]
            received := (send (send (channel (T := Nat)) 21) 22).received ++ [21] }) :=
  recv_batch_transfer (send (send channel 21) 22) 21 [22] rfl rfl

/-- C8: with a live sender, sending after the receiver handle has been
dropped is still a legal step and has the normal send effect — the value
is appended and one signal is raised; nothing fails.  Conjoined: scenario
D concretely (drop the receiver, then `send 21`). -/
theorem send_after_receiver_drop :
    (∀ (s : Chan T) (v : T), 1 ≤ s.live →
        Step (dropReceiver s) (send (dropReceiver s) v) ∧
        (send (dropReceiver s) v).queue = s.queue ++ [v] ∧
        (send (dropReceiver s) v).n_senders = s.n_senders ∧
        (send (dropReceiver s) v).signals = s.signals + 1)
    ∧ (send (dropReceiver (channel (T := Nat))) 21).queue = [21] := by
  refine ⟨fun s v hl => ⟨Step.send (dropReceiver s) v hl, rfl, rfl, rfl⟩, rfl⟩

/-- Witness for C8 at the concrete scenario-D state. -/
theorem send_after_receiver_drop_witness :
    Step (dropReceiver (channel (T := Nat)))
        (send (dropReceiver (channel (T := Nat))) 21) ∧
    (send (dropReceiver (channel (T := Nat))) 21).queue
        = (channel (T := Nat)).queue ++ [21] ∧
    (send (dropReceiver (channel (T := Nat))) 21).n_senders
        = (channel (T := Nat)).n_senders ∧
    (send (dropReceiver (channel (T := Nat))) 21).signals
        = (channel (T := Nat)).signals + 1 :=
  send_after_receiver_drop.1 channel 21 (by decide)

/-- C10: the batch-transfer swap is only ever reached with an empty local
buffer, so `recv` coincides with the spec's "move the rest of the queue
into the buffer" reading (`recvMove`) on every state; and in every
reachable state the send history splits as received values, then the
local buffer, then the shared queue — every buffered message was enqueued
before every queued message, so buffer-first draining follows the global
enqueue order. -/
theorem batch_swap_is_move :
    (∀ s : Chan T, recv s = recvMove s)
    ∧ (∀ s : Chan T, Reachable s → s.sent = s.received ++ s.buff ++ s.queue) := by
  constructor
  · intro s
    rcases s with ⟨q, ns, b, lv, rl, st, rc, sg⟩
    cases b with
    | cons v rest => simp [recv, recvMove]
    | nil =>
      cases q with
      | nil => by_cases hns : ns = 0 <;> simp [recv, recvMove, hns]
      | cons v rest => cases rest <;> simp [recv, recvMove]
  · exact fun s hs => (reach_inv hs).1

/-- Witness for C10 at a concrete reachable state. -/
theorem batch_swap_is_move_witness :
    (send (channel (T := Nat)) 21).sent
      = (send (channel (T := Nat)) 21).received
          ++ (send (channel (T := Nat)) 21).buff
          ++ (send (channel (T := Nat)) 21).queue :=
  batch_swap_is_move.2 (send channel 21)
    (Relation.ReflTransGen.single (Step.send channel 21 (by decide)))

/-- C1: delivery is FIFO.  In every reachable state the receive history is
a prefix of the global send history, so for each producer handle (tagged
here by a ghost id paired with the value) the values it sent are received
in exactly their send order.  Conjoined: scenario B concretely —
`send 21; send 22;` clone the producer, the clone sends `27`, and the
three `recv` calls return `21, 22, 27`. -/
theorem fifo_per_producer :
    (∀ (V : Type) (s : Chan (Nat × V)), Reachable s → ∀ pid : Nat,
        (s.received.filter (fun m => m.1 == pid)).map Prod.snd <+:
          (s.sent.filter (fun m => m.1 == pid)).map Prod.snd)
    ∧ (recv (send (cloneSender (send (send (channel (T := Nat)) 21) 22)) 27)).1
        = RecvOut.value 21
    ∧ (recv (recv (send (cloneSender (send (send (channel (T := Nat)) 21) 22)) 27)).2).1
        = RecvOut.value 22
    ∧ (recv (recv (recv (send (cloneSender (send (send (channel (T := Nat)) 21) 22)) 27)).2).2).1
        = RecvOut.value 27 := by
  refine ⟨?_, by decide, by decide, by decide⟩
  intro V s hs pid
  have h1 := (reach_inv hs).1
  have hpre : s.received <+: s.sent :=
    ⟨s.buff ++ s.queue, by rw [← List.append_assoc, ← h1]⟩
  exact prefix_filter_map _ _ hpre

/-- Witness for C1 at a concrete reachable state: one producer (ghost id
`0`) has sent `21`; its received projection is a prefix of its sent
projection. -/
theorem fifo_per_producer_witness :
    ((send (channel (T := Nat × Nat)) (0, 21)).received.filter
        (fun m => m.1 == 0)).map Prod.snd <+:
      ((send (channel (T := Nat × Nat)) (0, 21)).sent.filter
        (fun m => m.1 == 0)).map Prod.snd :=
  fifo_per_producer.1 Nat (send channel (0, 21))
    (Relation.ReflTransGen.single (Step.send channel (0, 21) (by decide))) 0

/-- C2: from any state with producer count zero, an empty shared queue and
an empty local buffer, `recv` returns the terminal signal `closed`
(`None`) and leaves the state unchanged, so every subsequent `recv` call
returns `closed` as well.  Conjoined: scenario C concretely — `send 21`,
drop the sole producer; `recv` returns `21` and every later `recv`
returns the terminal signal. -/
theorem closed_recv_terminal :
    (∀ s : Chan T, s.n_senders = 0 → s.queue = [] → s.buff = [] →
        ∀ n : Nat, recv ((fun t => (recv t).2)^[n] s) = (RecvOut.closed, s))
    ∧ (recv (dropSender (send (channel (T := Nat)) 21))).1 = RecvOut.value 21
    ∧ (∀ n : Nat,
        recv ((fun t => (recv t).2)^[n]
            (recv (dropSender (send (channel (T := Nat)) 21))).2)
          = (RecvOut.closed, (recv (dropSender (send (channel (T := Nat)) 21))).2)) := by
  refine ⟨fun s hns hq hb n => recv_closed_iterate s hns hq hb n, by decide,
    fun n => recv_closed_iterate _ (by decide) (by decide) (by decide) n⟩

/-- Witness for C2: after dropping the only producer of a fresh channel,
the second `recv` (one iterate) still reports closure. -/
theorem closed_recv_terminal_witness :
    recv ((fun t => (recv t).2)^[2] (dropSender (channel (T := Nat))))
      = (RecvOut.closed, dropSender (channel (T := Nat))) :=
  closed_recv_terminal.1 (dropSender channel) (by decide) rfl rfl 2

/-- C5: the factory creates the state with `n_senders = 1`, and in every
reachable state the `u32` counter equals the number of live producer
handles (exactly, whenever that number is below `2 ^ 32`; always modulo
`2 ^ 32`). -/
theorem producer_count_live :
    (channel (T := T)).n_senders = 1
    ∧ (∀ s : Chan T, Reachable s → s.n_senders = s.live % U32)
    ∧ (∀ s : Chan T, Reachable s → s.live < U32 → s.n_senders = s.live) := by
  refine ⟨rfl, fun s hs => (reach_inv hs).2, fun s hs hlt => ?_⟩
  rw [(reach_inv hs).2, Nat.mod_eq_of_lt hlt]

/-- Witness for C5: after one clone, the counter is `2` and two handles
are live. -/
theorem producer_count_live_witness :
    (cloneSender (channel (T := Nat))).n_senders
      = (cloneSender (channel (T := Nat))).live :=
  producer_count_live.2.2 (cloneSender channel)
    (Relation.ReflTransGen.single (Step.clone channel (by decide))) (by decide)

/-- C7: closure is terminal.  From any reachable state whose producer
count is zero (with fewer than `2 ^ 32` live handles, i.e. any realizable
state), every sequence of further steps — sends, clones, drops, recvs,
dropping the receiver — keeps the producer count at zero. -/
theorem closed_state_terminal (s s' : Chan T) (hs : Reachable s)
    (hns : s.n_senders = 0) (hlt : s.live < U32)
    (hsteps : Relation.ReflTransGen Step s s') :
    s'.n_senders = 0 ∧ s'.live = 0 := by
  have h2 := (reach_inv hs).2
  rw [Nat.mod_eq_of_lt hlt] at h2
  have hlive : s.live = 0 := by omega
  obtain ⟨ha, hb⟩ := closed_stable hsteps hlive hns
  exact ⟨hb, ha⟩

/-- Witness for C7: dropping the sole producer reaches the closed state,
and the empty continuation keeps the count at zero. -/
theorem closed_state_terminal_witness :
    (dropSender (channel (T := Nat))).n_senders = 0
      ∧ (dropSender (channel (T := Nat))).live = 0 :=
  closed_state_terminal (dropSender channel) (dropSender channel)
    (Relation.ReflTransGen.single (Step.drop channel (by decide)))
    (by decide) (by decide) Relation.ReflTransGen.refl

/-- C9: no message is lost or duplicated.  In every reachable state the
multiset of received values plus the pending ones (local buffer and
shared queue) equals the multiset of all sent values; in particular, once
`recv` reports closure — the stream is drained and closed — the received
multiset equals the sent multiset. -/
theorem multiset_preservation (s : Chan T) (hs : Reachable s) :
    (↑s.received + ↑s.buff + ↑s.queue : Multiset T) = ↑s.sent
    ∧ ((recv s).1 = RecvOut.closed →
        (↑s.received : Multiset T) = ↑s.sent) := by
  have h1 := (reach_inv hs).1
  constructor
  · simp only [Multiset.coe_add]
    rw [← h1]
  · intro hc
    obtain ⟨hb, hq, _, _⟩ := recv_closed_inv s hc
    rw [h1, hb, hq]
    simp

/-- Witness for C9 at the concrete drained-and-closed state of scenario C:
send `21`, drop the producer, receive `21`; received = sent. -/
theorem multiset_preservation_witness :
    (↑(recv (dropSender (send (channel (T := Nat)) 21))).2.received : Multiset Nat)
      = ↑(recv (dropSender (send (channel (T := Nat)) 21))).2.sent :=
  (multiset_preservation (recv (dropSender (send (channel (T := Nat)) 21))).2
    (Relation.ReflTransGen.tail
      (Relation.ReflTransGen.tail
        (Relation.ReflTransGen.single (Step.send channel 21 (by decide)))
        (Step.drop (send channel 21) (by decide)))
      (Step.recv (dropSender (send channel 21)) (by decide)))).2 (by decide)

end Suez
